import Mathlib

/-!
Verification development for the `esper` repository (tee-tlsn verifier).

The Rust sources under `crates/verifier` (provider.rs, util.rs, tls/notarize.rs)
and `crates/wasm/src/lib.rs` are shallowly embedded below.  Conventions:

* Rust `&str` values manipulated by byte index are modelled as `List Char`;
  every slice index taken by the source is a character boundary produced by
  `char_indices`, and all operator tokens are ASCII, so character counting
  agrees with byte counting at each slice point used by the code.
* `f64` is modelled by `Jf`: an exact rational for finite values plus NaN and
  the two infinities.  Rounding of decimal literals to the nearest double is
  abstracted away (the rational holds the exact decimal value); overflow to
  infinity is modelled at magnitude `2^1024`.  No theorem below depends on a
  value where this abstraction and IEEE 754 differ.
* `serde_json::Number` is `JNum`; its `Float` variant can only be built through
  `Number::from_f64`, which rejects non-finite values, so the embedded float
  variant carries a rational directly.
* External crates (regex, boa JS engine, httparse, p256, sha2, the attestation
  verifier) are modelled as oracle parameters bundled into structures; theorems
  quantify over the oracles and concrete witnesses instantiate them with small
  executable functions that agree with the real crates on the inputs used.
* Rust `HashMap` values are modelled as association lists in a canonical
  insertion order together with an explicit iteration-order oracle `ord`;
  the real iteration order is unspecified, so any permutation is admissible.
* A Rust panic (`unwrap` / `expect` / slice-bound failure) is modelled by an
  explicit `panicked` constructor of the result type.
-/

set_option maxRecDepth 8192

namespace Esper

/-! ## Character-list utilities -/

/-- Whitespace trim from the left, model of `str::trim_start`.
Rust trims Unicode whitespace; the rule strings handled by the claims are
ASCII, where `Char.isWhitespace` agrees. -/
def trimLeftL (l : List Char) : List Char := l.dropWhile Char.isWhitespace

/-- Whitespace trim on both ends, model of `str::trim`. -/
def trimL (l : List Char) : List Char :=
  ((l.dropWhile Char.isWhitespace).reverse.dropWhile Char.isWhitespace).reverse

/-- `needle` occurs at the head of `hay` (model of `str::starts_with`). -/
def startsWithL : List Char → List Char → Bool
  | [], _ => true
  | _ :: _, [] => false
  | a :: as, b :: bs => a == b && startsWithL as bs

/-- `needle` occurs at the end of `hay` (model of `str::ends_with`). -/
def endsWithL (needle hay : List Char) : Bool :=
  startsWithL needle.reverse hay.reverse

/-- Split on every occurrence of a character, keeping empty segments,
model of `str::split(c)`. -/
def splitOnCharL (c : Char) : List Char → List (List Char)
  | [] => [[]]
  | x :: xs =>
    let rest := splitOnCharL c xs
    if x == c then [] :: rest
    else
      match rest with
      | [] => [[x]]
      | r :: rs => (x :: r) :: rs

/-- First position of a character, model of `str::find(c)`. -/
def findCharL (c : Char) : List Char → Option Nat
  | [] => none
  | x :: xs => if x == c then some 0 else (findCharL c xs).map (· + 1)

/-- Last position of a character, model of `str::rfind(c)`. -/
def rfindCharL (c : Char) (l : List Char) : Option Nat :=
  (findCharL c l.reverse).map (fun i => l.length - 1 - i)

/-! ## The f64 and JSON value model -/

/-- An `f64` value: an exact rational for the finite case (rounding to the
nearest double is abstracted away), plus NaN and the infinities. -/
inductive Jf where
  | finite (q : Rat)
  | nan
  | inf
  | neginf
deriving DecidableEq, Repr

/-- `true` on finite values. -/
def Jf.isFinite : Jf → Bool
  | .finite _ => true
  | _ => false

/-- `f64` comparison `>`: any comparison involving NaN is false. -/
def Jf.gt : Jf → Jf → Bool
  | .finite p, .finite q => q < p
  | .finite _, .neginf => true
  | .inf, .finite _ => true
  | .inf, .neginf => true
  | _, _ => false

/-- `serde_json::Number`.  The integer variants `PosInt`/`NegInt` are merged
into one mathematical integer (the sign determines the variant uniquely, so
derived equality on the Rust enum agrees with equality on `Int`).  The float
variant is finite by the `Number::from_f64` invariant. -/
inductive JNum where
  | int (i : Int)
  | float (q : Rat)
deriving DecidableEq, Repr

/-- `serde_json::Value`.  Objects are kept as association lists sorted by key
with unique keys, the canonical form of the `BTreeMap` used by `serde_json`. -/
inductive Json where
  | null
  | bool (b : Bool)
  | num (n : JNum)
  | str (s : String)
  | arr (xs : List Json)
  | obj (fields : List (String × Json))
deriving Repr

/-- Insert into a key-sorted association list, replacing an existing binding
(model of `BTreeMap::insert`). -/
def objInsert (k : String) (v : Json) : List (String × Json) → List (String × Json)
  | [] => [(k, v)]
  | (k', v') :: rest =>
    if k == k' then (k, v) :: rest
    else if k < k' then (k, v) :: (k', v') :: rest
    else (k', v') :: objInsert k v rest

/-- Key lookup in an object's field list (model of `Map::get`). -/
def objLookup (k : String) : List (String × Json) → Option Json
  | [] => none
  | (k', v) :: rest => if k == k' then some v else objLookup k rest

/-- `Value::get(&str)`: key lookup on objects, `None` on every other variant. -/
def Json.getKey (v : Json) (k : String) : Option Json :=
  match v with
  | .obj fields => objLookup k fields
  | _ => none

/-- `Value::as_bool`. -/
def Json.asBool : Json → Option Bool
  | .bool b => some b
  | _ => none

/-- `Number` viewed as `f64` (`Value::as_f64` restricted to numbers).
The precision loss of `u64 as f64` for huge integers is abstracted away. -/
def JNum.toJf : JNum → Jf
  | .int i => .finite (i : Rat)
  | .float q => .finite q

/-- `Value::as_f64`: only numbers convert. -/
def Json.asF64 : Json → Option Jf
  | .num n => some n.toJf
  | _ => none

/-! ## serde_json `PartialEq` for `Value` -/

mutual

/-- `Value == Value`.  Numbers compare by variant (an integer never equals a
float, mirroring the derived equality on serde's `N` enum); objects compare as
maps, which on the canonical sorted unique-key form is pairwise equality. -/
def jsonEq : Json → Json → Bool
  | .null, .null => true
  | .bool a, .bool b => a == b
  | .num a, .num b => a == b
  | .str a, .str b => a == b
  | .arr as, .arr bs => jsonEqList as bs
  | .obj as, .obj bs => jsonEqObj as bs
  | _, _ => false

def jsonEqList : List Json → List Json → Bool
  | [], [] => true
  | a :: as, b :: bs => jsonEq a b && jsonEqList as bs
  | _, _ => false

def jsonEqObj : List (String × Json) → List (String × Json) → Bool
  | [], [] => true
  | (k, v) :: as, (k', v') :: bs => k == k' && jsonEq v v' && jsonEqObj as bs
  | _, _ => false

end

/-! ## serde_json `Display` (compact `to_string`) -/

/-- Render a finite float.  This abstracts ryu's shortest-round-trip printing:
integral values print as `n.0` like ryu does for moderate magnitudes; no
theorem below depends on the non-integral or large-magnitude cases. -/
def renderFloat (q : Rat) : String :=
  if q.den = 1 then toString q.num ++ ".0" else toString q.num ++ "/" ++ toString q.den

/-- `Display` for `serde_json::Number`. -/
def JNum.render : JNum → String
  | .int i => toString i
  | .float q => renderFloat q

/-- JSON string escaping used by serde's compact printer. -/
def escapeJsonChar (c : Char) : List Char :=
  if c = '"' then ['\\', '"']
  else if c = '\\' then ['\\', '\\']
  else if c = '\n' then ['\\', 'n']
  else if c = '\r' then ['\\', 'r']
  else if c = '\t' then ['\\', 't']
  else if c.toNat = 8 then ['\\', 'b']
  else if c.toNat = 12 then ['\\', 'f']
  else if c.toNat < 32 then
    ['\\', 'u', '0', '0',
     (if c.toNat / 16 = 1 then '1' else '0'),
     (Nat.digitChar (c.toNat % 16))]
  else [c]

/-- Quoted, escaped JSON string literal. -/
def renderString (s : String) : String :=
  "\"" ++ String.mk (s.data.map escapeJsonChar).flatten ++ "\""

/-- Comma-join used by the compact printer. -/
def renderJoin : List String → String
  | [] => ""
  | [s] => s
  | s :: rest => s ++ "," ++ renderJoin rest

mutual

/-- Compact rendering, model of `Value::to_string()` / `Display`. -/
def Json.render : Json → String
  | .null => "null"
  | .bool true => "true"
  | .bool false => "false"
  | .num n => n.render
  | .str s => renderString s
  | .arr xs => "[" ++ renderJoin (renderList xs) ++ "]"
  | .obj fs => "\x7b" ++ renderJoin (renderObj fs) ++ "\x7d"

def renderList : List Json → List String
  | [] => []
  | x :: xs => x.render :: renderList xs

def renderObj : List (String × Json) → List String
  | [] => []
  | (k, v) :: fs => (renderString k ++ ":" ++ v.render) :: renderObj fs

end

/-! ## Rust `f64::from_str` -/

/-- Value of a decimal digit. -/
def digitVal (c : Char) : Option Nat :=
  let n := c.toNat
  if 48 ≤ n ∧ n ≤ 57 then some (n - 48) else none

/-- Leading decimal digits of a character list, and the remainder. -/
def takeDigits : List Char → (List Nat × List Char)
  | [] => ([], [])
  | c :: rest =>
    match digitVal c with
    | some d => let (ds, r) := takeDigits rest; (d :: ds, r)
    | none => ([], c :: rest)

/-- Digits to the natural number they denote. -/
def digitsToNat (ds : List Nat) : Nat := ds.foldl (fun acc d => 10 * acc + d) 0

/-- Largest-finite-double threshold: overflow to infinity is modelled at
`2^1024` (the exact rounding boundary is a hair below; no input used by a
theorem sits near it). -/
def f64Overflow : Rat := mkRat ((2 ^ 1024 : Nat) : Int) 1

/-- The exact rational denoted by decimal digits `ip`, fraction digits `fp`
and a (clamped) base-ten exponent `ev`, built with `mkRat` over natural
powers of ten so that the kernel evaluates it directly. -/
def decimalRat (ip fp : List Nat) (ev : Int) : Rat :=
  let baseN : Nat := digitsToNat ip * 10 ^ fp.length + digitsToNat fp
  if 0 ≤ ev then mkRat ((baseN * 10 ^ ev.toNat : Nat) : Int) (10 ^ fp.length)
  else mkRat (baseN : Int) (10 ^ fp.length * 10 ^ (-ev).toNat)

/-- Decimal part of `f64::from_str` after the sign: digits, optional fraction,
optional exponent.  The exact rational value is kept; exponents beyond the
double range collapse to overflow/underflow. -/
def parseF64Decimal (l : List Char) : Option Rat :=
  let (ip, r1) := takeDigits l
  let (fp, r2) :=
    match r1 with
    | '.' :: rest => let (ds, r) := takeDigits rest; (ds, r)
    | _ => ([], r1)
  if ip.isEmpty && fp.isEmpty then none
  else
    match r2 with
    | [] => some (decimalRat ip fp 0)
    | e :: rest =>
      if e = 'e' || e = 'E' then
        let (esign, r3) :=
          match rest with
          | '+' :: r => ((1 : Int), r)
          | '-' :: r => ((-1 : Int), r)
          | r => ((1 : Int), r)
        let (eds, r4) := takeDigits r3
        if eds.isEmpty || !r4.isEmpty then none
        else
          let ev := digitsToNat eds
          -- clamp: |exponent| > 400 is far outside the double range
          if ev > 400 then
            if esign = 1 then
              if decimalRat ip fp 0 = 0 then some 0 else some f64Overflow
            else some 0
          else some (decimalRat ip fp (esign * (ev : Int)))
      else none

/-- Model of Rust `"...".parse::<f64>()`: optional sign, then
`inf`/`infinity`/`nan` (case-insensitive) or a decimal number. -/
def parseF64 (l : List Char) : Option Jf :=
  let (neg, body) :=
    match l with
    | '+' :: rest => (false, rest)
    | '-' :: rest => (true, rest)
    | rest => (false, rest)
  let lower := body.map Char.toLower
  if lower = ['i', 'n', 'f'] || lower = ['i', 'n', 'f', 'i', 'n', 'i', 't', 'y'] then
    some (if neg then .neginf else .inf)
  else if lower = ['n', 'a', 'n'] then some .nan
  else
    match parseF64Decimal body with
    | none => none
    | some q0 =>
      let q := if neg then -q0 else q0
      -- |q| ≥ 2^1024 phrased over the numerator and denominator so the
      -- kernel evaluates it directly
      if 2 ^ 1024 * q.den ≤ q.num.natAbs then
        (if q.num < 0 then some .neginf else some .inf)
      else some (.finite q)

/-- `serde_json::Number::from_f64`: `None` on non-finite input. -/
def numberFromF64 : Jf → Option JNum
  | .finite q => some (.float q)
  | _ => none

/-! ## hex, base64 and UTF-8 helpers -/

/-- Value of a hex digit (both cases), model of the `hex` crate's table. -/
def hexDigitVal (c : Char) : Option Nat :=
  let n := c.toNat
  if 48 ≤ n ∧ n ≤ 57 then some (n - 48)
  else if 97 ≤ n ∧ n ≤ 102 then some (n - 87)
  else if 65 ≤ n ∧ n ≤ 70 then some (n - 55)
  else none

/-- `hex::decode`: fails on odd length or a non-hex character. -/
def hexDecodeL : List Char → Option (List Nat)
  | [] => some []
  | [_] => none
  | a :: b :: rest =>
    match hexDigitVal a, hexDigitVal b, hexDecodeL rest with
    | some x, some y, some t => some ((16 * x + y) :: t)
    | _, _, _ => none

/-- `hex::decode` on a string. -/
def hexDecode (s : String) : Option (List Nat) := hexDecodeL s.data

/-- Lowercase hex digit character. -/
def hexChar (n : Nat) : Char := Nat.digitChar (n % 16)

/-- `hex::encode` (lowercase).  Bytes are naturals reduced mod 256. -/
def hexEncode (bytes : List Nat) : String :=
  String.mk (bytes.map (fun b => [hexChar ((b % 256) / 16), hexChar (b % 16)])).flatten

/-- Standard base64 alphabet character for a 6-bit value. -/
def b64Char (n : Nat) : Char :=
  let n := n % 64
  if n < 26 then Char.ofNat ('A'.toNat + n)
  else if n < 52 then Char.ofNat ('a'.toNat + (n - 26))
  else if n < 62 then Char.ofNat ('0'.toNat + (n - 52))
  else if n = 62 then '+'
  else '/'

/-- Value of a base64 alphabet character. -/
def b64Val (c : Char) : Option Nat :=
  if 'A' ≤ c && c ≤ 'Z' then some (c.toNat - 'A'.toNat)
  else if 'a' ≤ c && c ≤ 'z' then some (c.toNat - 'a'.toNat + 26)
  else if '0' ≤ c && c ≤ '9' then some (c.toNat - '0'.toNat + 52)
  else if c = '+' then some 62
  else if c = '/' then some 63
  else none

/-- `base64` STANDARD encoding with padding (the crate's `encode`). -/
def b64EncodeL : List Nat → List Char
  | [] => []
  | [a] =>
    let a := a % 256
    [b64Char (a / 4), b64Char ((a % 4) * 16), '=', '=']
  | [a, b] =>
    let a := a % 256
    let b := b % 256
    [b64Char (a / 4), b64Char ((a % 4) * 16 + b / 16), b64Char ((b % 16) * 4), '=']
  | a :: b :: c :: rest =>
    let a := a % 256
    let b := b % 256
    let c := c % 256
    b64Char (a / 4) :: b64Char ((a % 4) * 16 + b / 16) ::
      b64Char ((b % 16) * 4 + c / 64) :: b64Char (c % 64) :: b64EncodeL rest

/-- `base64::encode` (STANDARD with padding). -/
def b64Encode (bytes : List Nat) : String := String.mk (b64EncodeL bytes)

/-- `base64` STANDARD decoding: requires canonical padding, rejects stray
characters and nonzero trailing bits. -/
def b64DecodeL : List Char → Option (List Nat)
  | [] => some []
  | [c1, c2, '=', '='] =>
    match b64Val c1, b64Val c2 with
    | some v1, some v2 =>
      if v2 % 16 = 0 then some [v1 * 4 + v2 / 16] else none
    | _, _ => none
  | [c1, c2, c3, '='] =>
    match b64Val c1, b64Val c2, b64Val c3 with
    | some v1, some v2, some v3 =>
      if v3 % 4 = 0 then some [v1 * 4 + v2 / 16, (v2 % 16) * 16 + v3 / 4] else none
    | _, _, _ => none
  | c1 :: c2 :: c3 :: c4 :: rest =>
    match b64Val c1, b64Val c2, b64Val c3, b64Val c4, b64DecodeL rest with
    | some v1, some v2, some v3, some v4, some t =>
      some ((v1 * 4 + v2 / 16) :: ((v2 % 16) * 16 + v3 / 4) :: ((v3 % 4) * 64 + v4) :: t)
    | _, _, _, _, _ => none
  | _ => none

/-- `base64::decode` on a string. -/
def b64Decode (s : String) : Option (List Nat) := b64DecodeL s.data

/-- UTF-8 encoding of one character. -/
def utf8EncodeCharNat (c : Char) : List Nat :=
  let n := c.toNat
  if n < 0x80 then [n]
  else if n < 0x800 then [0xC0 + n / 64, 0x80 + n % 64]
  else if n < 0x10000 then [0xE0 + n / 4096, 0x80 + (n / 64) % 64, 0x80 + n % 64]
  else [0xF0 + n / 262144, 0x80 + (n / 4096) % 64, 0x80 + (n / 64) % 64, 0x80 + n % 64]

/-- UTF-8 bytes of a string (`str::as_bytes`). -/
def utf8Bytes (s : String) : List Nat := (s.data.map utf8EncodeCharNat).flatten

/-- Concrete stand-in for `String::from_utf8_lossy`, used by witnesses.
It agrees with the lossy conversion on ASCII byte lists, which is the only
kind of input any concrete theorem feeds it. -/
def asciiLossy (bytes : List Nat) : String :=
  String.mk (bytes.map (fun b => if b < 128 then Char.ofNat b else '�'))

/-! ## `serde_json::from_str` (the JSON grammar used when no preprocess script
is configured, and to re-parse JavaScript results) -/

/-- JSON whitespace (space, tab, newline, carriage return). -/
def jsonWs (c : Char) : Bool := c = ' ' || c = '\t' || c = '\n' || c = '\r'

/-- Skip JSON whitespace. -/
def skipWs (l : List Char) : List Char := l.dropWhile jsonWs

/-- Parse the body of a JSON string literal after the opening quote,
returning the string and the remainder after the closing quote.
Control characters must be escaped; `\\uXXXX` escapes are decoded, including
surrogate pairs (a lone surrogate is rejected, as serde does). -/
def parseJsonString (acc : List Char) : List Char → Option (String × List Char)
  | [] => none
  | '"' :: rest => some (String.mk acc.reverse, rest)
  | '\\' :: esc =>
    match esc with
    | '"' :: rest => parseJsonString ('"' :: acc) rest
    | '\\' :: rest => parseJsonString ('\\' :: acc) rest
    | '/' :: rest => parseJsonString ('/' :: acc) rest
    | 'b' :: rest => parseJsonString (Char.ofNat 8 :: acc) rest
    | 'f' :: rest => parseJsonString (Char.ofNat 12 :: acc) rest
    | 'n' :: rest => parseJsonString ('\n' :: acc) rest
    | 'r' :: rest => parseJsonString ('\r' :: acc) rest
    | 't' :: rest => parseJsonString ('\t' :: acc) rest
    | 'u' :: h1 :: h2 :: h3 :: h4 :: rest =>
      match hexDigitVal h1, hexDigitVal h2, hexDigitVal h3, hexDigitVal h4 with
      | some a, some b, some c, some d =>
        let code := ((a * 16 + b) * 16 + c) * 16 + d
        if 0xD800 ≤ code && code ≤ 0xDBFF then
          -- high surrogate: a low surrogate escape must follow
          match rest with
          | '\\' :: 'u' :: g1 :: g2 :: g3 :: g4 :: rest' =>
            match hexDigitVal g1, hexDigitVal g2, hexDigitVal g3, hexDigitVal g4 with
            | some a', some b', some c', some d' =>
              let lo := ((a' * 16 + b') * 16 + c') * 16 + d'
              if 0xDC00 ≤ lo && lo ≤ 0xDFFF then
                parseJsonString
                  (Char.ofNat (0x10000 + (code - 0xD800) * 0x400 + (lo - 0xDC00)) :: acc) rest'
              else none
            | _, _, _, _ => none
          | _ => none
        else if 0xDC00 ≤ code && code ≤ 0xDFFF then none
        else parseJsonString (Char.ofNat code :: acc) rest
      | _, _, _, _ => none
    | _ => none
  | c :: rest => if c.toNat < 0x20 then none else parseJsonString (c :: acc) rest

/-- Parse a JSON number per RFC 8259 (no leading zeros, at least one digit in
each part).  Without a fraction or exponent the value stays an integer, as
serde keeps it (`u64`/`i64`); otherwise it becomes a finite float. -/
def parseJsonNumber (l : List Char) : Option (JNum × List Char) :=
  let (neg, l1) := match l with | '-' :: r => (true, r) | r => (false, r)
  let (ip, l2) := takeDigits l1
  if ip.isEmpty then none
  else if ip.length > 1 && ip.headI = 0 then none
  else
    let fracPart : Option (List Nat × List Char) :=
      match l2 with
      | '.' :: r =>
        let (ds, r') := takeDigits r
        if ds.isEmpty then none else some (ds, r')
      | _ => some ([], l2)
    match fracPart with
    | none => none
    | some (fp, l3) =>
      let expPart : Option (Int × List Char) :=
        match l3 with
        | 'e' :: r | 'E' :: r =>
          let (es, r') :=
            match r with
            | '+' :: r'' => ((1 : Int), r'')
            | '-' :: r'' => ((-1 : Int), r'')
            | r'' => ((1 : Int), r'')
          let (ds, r'') := takeDigits r'
          if ds.isEmpty then none else some (es * (digitsToNat ds : Int), r'')
        | _ => some (0, l3)
      match expPart with
      | none => none
      | some (ev, l4) =>
        if fp.isEmpty && l3 = l4 then
          let intVal : Int := if neg then -(digitsToNat ip : Int) else (digitsToNat ip : Int)
          some (.int intVal, l2)
        else
          let mag : Rat :=
            if ev > 400 then
              (if digitsToNat ip = 0 && digitsToNat fp = 0 then 0 else f64Overflow)
            else if ev < -400 then 0
            else decimalRat ip fp ev
          some (.float (if neg then -mag else mag), l4)

mutual

/-- One JSON value with explicit recursion fuel; returns the value and the
unconsumed remainder.  Fuel at least the input length always suffices. -/
def parseJsonValue : Nat → List Char → Option (Json × List Char)
  | 0, _ => none
  | _ + 1, [] => none
  | fuel + 1, l =>
    let l := skipWs l
    match l with
    | 'n' :: 'u' :: 'l' :: 'l' :: rest => some (.null, rest)
    | 't' :: 'r' :: 'u' :: 'e' :: rest => some (.bool true, rest)
    | 'f' :: 'a' :: 'l' :: 's' :: 'e' :: rest => some (.bool false, rest)
    | '"' :: rest => (parseJsonString [] rest).map (fun (s, r) => (.str s, r))
    | '[' :: rest =>
      let rest := skipWs rest
      match rest with
      | ']' :: r => some (.arr [], r)
      | _ => parseJsonArrayItems fuel rest []
    | '{' :: rest =>
      let rest := skipWs rest
      match rest with
      | '}' :: r => some (.obj [], r)
      | _ => parseJsonObjectItems fuel rest []
    | _ => (parseJsonNumber l).map (fun (n, r) => (.num n, r))

/-- Comma-separated array items up to `]`. -/
def parseJsonArrayItems : Nat → List Char → List Json → Option (Json × List Char)
  | 0, _, _ => none
  | fuel + 1, l, acc =>
    match parseJsonValue fuel l with
    | none => none
    | some (v, rest) =>
      match skipWs rest with
      | ',' :: r => parseJsonArrayItems fuel r (v :: acc)
      | ']' :: r => some (.arr (v :: acc).reverse, r)
      | _ => none

/-- Comma-separated `"key": value` members up to `}`; duplicate keys follow
`BTreeMap::insert` (last wins). -/
def parseJsonObjectItems : Nat → List Char → List (String × Json) → Option (Json × List Char)
  | 0, _, _ => none
  | fuel + 1, l, acc =>
    match skipWs l with
    | '"' :: rest =>
      match parseJsonString [] rest with
      | none => none
      | some (k, r1) =>
        match skipWs r1 with
        | ':' :: r2 =>
          match parseJsonValue fuel r2 with
          | none => none
          | some (v, r3) =>
            let acc := objInsert k v acc
            match skipWs r3 with
            | ',' :: r4 => parseJsonObjectItems fuel r4 acc
            | '}' :: r4 => some (.obj acc, r4)
            | _ => none
        | _ => none
    | _ => none

end

/-- Model of `serde_json::from_str::<Value>`: one value, nothing but
whitespace after it. -/
def parseJson (s : String) : Except String Json :=
  match parseJsonValue (s.length + 1) s.data with
  | some (v, rest) =>
    if (skipWs rest).isEmpty then .ok v else .error "trailing characters"
  | none => .error "JSON parse error"

/-! ## The attribute expression evaluator (provider.rs, bottom half) -/

/-- Scanner behind `find_operator_position`: first index at which `op` starts,
at parenthesis depth 0 and outside backticks.  The backtick, `(` and `)`
arms never check for the operator, exactly as the source's `match`. -/
def findOpAux (op : List Char) : List Char → Int → Bool → Nat → Option Nat
  | [], _, _, _ => none
  | c :: rest, pc, ib, i =>
    if c == '`' then findOpAux op rest pc (!ib) (i + 1)
    else if c == '(' && !ib then findOpAux op rest (pc + 1) ib (i + 1)
    else if c == ')' && !ib then findOpAux op rest (pc - 1) ib (i + 1)
    else if !ib && pc == 0 && startsWithL op (c :: rest) then some i
    else findOpAux op rest pc ib (i + 1)

/-- `find_operator_position(expr, op)`. -/
def find_operator_position (expr op : List Char) : Option Nat :=
  findOpAux op expr 0 false 0

/-- Scanner behind `split_attribute_fields`: split on top-level commas outside
backticks, trimming each piece and dropping empty pieces. -/
def splitFieldsAux : List Char → List Char → Int → Bool → List (List Char) → List (List Char)
  | [], cur, _, _, fs =>
    let t := trimL cur.reverse
    (if t.isEmpty then fs else t :: fs).reverse
  | c :: rest, cur, pc, ib, fs =>
    if c == '`' then splitFieldsAux rest (c :: cur) pc (!ib) fs
    else if c == '(' && !ib then splitFieldsAux rest (c :: cur) (pc + 1) ib fs
    else if c == ')' && !ib then splitFieldsAux rest (c :: cur) (pc - 1) ib fs
    else if c == ',' && !ib && pc == 0 then
      let t := trimL cur.reverse
      splitFieldsAux rest [] pc ib (if t.isEmpty then fs else t :: fs)
    else splitFieldsAux rest (c :: cur) pc ib fs

/-- `split_attribute_fields(content)` (it never returns `Err`). -/
def split_attribute_fields (content : List Char) : List (List Char) :=
  splitFieldsAux content [] 0 false []

/-- `parse_field_mapping`: split at the first `:` anywhere, trimming the key
and the expression. -/
def parse_field_mapping (field : List Char) : Except String (List Char × List Char) :=
  match findCharL ':' field with
  | some i => .ok (trimL (field.take i), trimL (field.drop (i + 1)))
  | none => .error ("Invalid field mapping: " ++ String.mk field)

/-- `parse_literal_value`: backtick-wrapped tokens parse as numbers when they
can (rejecting NaN/infinity) and otherwise become the unwrapped string; an
unwrapped float-parsable token is a number; a quote-wrapped token is the
unwrapped string; everything else is the raw token as a string.
The source panics through an out-of-range slice on the one-character inputs
`` ` ``, `'` and `"`; those three inputs fall through here instead and no
theorem evaluates them. -/
def parse_literal_value (value : List Char) : Except String Json :=
  let v := trimL value
  if startsWithL ['`'] v && endsWithL ['`'] v && v.length ≥ 2 then
    let inner := (v.drop 1).dropLast
    match parseF64 inner with
    | some f =>
      match numberFromF64 f with
      | some n => .ok (.num n)
      | none => .error "Invalid number value in backticks (NaN or infinite)"
    | none => .ok (.str (String.mk inner))
  else
    match parseF64 v with
    | some f =>
      match numberFromF64 f with
      | some n => .ok (.num n)
      | none => .error "Invalid number value (NaN or infinite)"
    | none =>
      if ((startsWithL ['"'] v && endsWithL ['"'] v) ||
          (startsWithL ['\''] v && endsWithL ['\''] v)) && v.length ≥ 2 then
        .ok (.str (String.mk ((v.drop 1).dropLast)))
      else .ok (.str (String.mk v))

/-- `evaluate_field_expression`, with explicit recursion fuel (the source
recurses on strictly shorter substrings, so any fuel of at least the
expression's length gives the source's answer; fuel exhaustion is a modelling
artifact that no theorem relies on).  Branch order mirrors the source:
`&&`, `>`, `==`, `to_number(...)`, `length(...)`, dotted path, bare key. -/
def evaluate_field_expression (data : Json) : Nat → List Char → Except String Json
  | 0, _ => .error "recursion fuel exhausted"
  | fuel + 1, expr0 =>
    let expr := trimL expr0
    match find_operator_position expr ['&', '&'] with
    | some p => do
      let lv ← evaluate_field_expression data fuel (trimL (expr.take p))
      let rv ← evaluate_field_expression data fuel (trimL (expr.drop (p + 2)))
      match lv.asBool with
      | none => .error "Left side of && is not boolean"
      | some lb =>
        match rv.asBool with
        | none => .error "Right side of && is not boolean"
        | some rb => .ok (.bool (lb && rb))
    | none =>
    match find_operator_position expr ['>'] with
    | some p => do
      let lv ← evaluate_field_expression data fuel (trimL (expr.take p))
      let rv ← parse_literal_value (trimL (expr.drop (p + 1)))
      match lv.asF64, rv.asF64 with
      | some l, some r => .ok (.bool (Jf.gt l r))
      | _, _ => .error "Cannot compare non-numbers"
    | none =>
    match find_operator_position expr ['=', '='] with
    | some p => do
      let lv ← evaluate_field_expression data fuel (trimL (expr.take p))
      let rv ← parse_literal_value (trimL (expr.drop (p + 2)))
      .ok (.bool (jsonEq lv rv))
    | none =>
    if startsWithL ['t', 'o', '_', 'n', 'u', 'm', 'b', 'e', 'r', '('] expr &&
        endsWithL [')'] expr then do
      let iv ← evaluate_field_expression data fuel ((expr.drop 10).dropLast)
      match iv with
      | .num n => .ok (.num n)
      | .str s =>
        match parseF64 s.data with
        | some f =>
          match numberFromF64 f with
          | some n => .ok (.num n)
          | none => .error "Invalid number value (NaN or infinite)"
        | none => .error "Cannot convert value to number"
      | _ => .error "Cannot convert value to number"
    else if startsWithL ['l', 'e', 'n', 'g', 't', 'h', '('] expr && endsWithL [')'] expr then do
      let iv ← evaluate_field_expression data fuel ((expr.drop 7).dropLast)
      match iv with
      | .str s => .ok (.num (.int (s.utf8ByteSize : Int)))
      | .arr a => .ok (.num (.int (a.length : Int)))
      | _ => .error "Cannot get length of value"
    else if expr.contains '.' then
      (splitOnCharL '.' expr).foldlM
        (fun cur part =>
          match cur.getKey (String.mk part) with
          | some v => .ok v
          | none => .error ("Field '" ++ String.mk part ++ "' not found"))
        data
    else
      match data.getKey (String.mk expr) with
      | some v => .ok v
      | none => .error ("Field '" ++ String.mk expr ++ "' not found")

/-- `HashMap::insert` on the canonical (first-insertion-ordered) association
list: replace in place or append. -/
def hmInsert {α : Type} (k : String) (v : α) : List (String × α) → List (String × α)
  | [] => [(k, v)]
  | (k', v') :: rest => if k == k' then (k, v) :: rest else (k', v') :: hmInsert k v rest

/-- `evaluate_attribute_expression`: strip one outer brace pair, split the
fields, evaluate each and collect them into the rule's `HashMap`, returned
here in canonical insertion order (the map itself is unordered). -/
def evaluate_attribute_expression (fuel : Nat) (expr : List Char) (data : Json) :
    Except String (List (String × Json)) :=
  let t := trimL expr
  let content :=
    match t with
    | '{' :: rest => if endsWithL ['}'] rest then trimL rest.dropLast else t
    | _ => t
  (split_attribute_fields content).foldlM
    (fun acc field => do
      let (k, e) ← parse_field_mapping field
      let v ← evaluate_field_expression data fuel e
      .ok (hmInsert (String.mk k) v acc))
    []

/-! ## Provider configuration, caches and response processing -/

/-- `Provider` (provider.rs). -/
structure Provider where
  id : Nat
  host : String
  url_regex : String
  target_url : String
  method : String
  title : String
  description : String
  icon : String
  response_type : String
  attributes : Option (List String)
  preprocess : Option String
deriving DecidableEq, Repr

/-- `Config`.  `expected_pcrs` is kept as an association list. -/
structure Config where
  version : String
  expected_pcrs : List (String × String)
  providers : List Provider
deriving DecidableEq, Repr

/-- `Processor`. -/
structure Processor where
  schema_url : String
  config : Config
deriving DecidableEq, Repr

/-- `ProviderError`.  Payloads are kept as display strings. -/
inductive ProviderError where
  | InvalidRegex (pattern msg : String)
  | InvalidJsonpath (expr msg : String)
  | JsonpathError (msg : String)
  | JsonParseError (msg : String)
  | PreprocessError (msg : String)
  | PreProcessScriptError (msg : String)
  | ProcessError (msg : String)
  | RequestError (msg : String)
  | ResponseParseError (msg : String)
  | SchemaError (msg : String)
  | ValidationError (msg : String)
  | CacheError (msg : String)
deriving DecidableEq, Repr

/-- The `thiserror` `Display` strings of `ProviderError` (used where the
source calls `e.to_string()`). -/
def ProviderError.toMessage : ProviderError → String
  | .InvalidRegex p m => "Invalid regex '" ++ p ++ "': " ++ m
  | .InvalidJsonpath e m => "Invalid JSONPath expression '" ++ e ++ "': " ++ m
  | .JsonpathError m => "JSONPath search error: " ++ m
  | .JsonParseError m => "Failed to parse JSON: " ++ m
  | .PreprocessError m => "Preprocess script error: " ++ m
  | .PreProcessScriptError m => "Preprocess script error: " ++ m
  | .ProcessError m => "Process script error: " ++ m
  | .RequestError m => "Failed to make request to provider: " ++ m
  | .ResponseParseError m => "Failed to parse response: " ++ m
  | .SchemaError m => "Invalid schema: " ++ m
  | .ValidationError m => "JSON validation failed: " ++ m
  | .CacheError m => "Cache error: " ++ m

/-- The `regex` crate as an oracle: whether a pattern compiles, and whether a
compiled pattern matches a text. -/
structure RegexOracle where
  valid : String → Bool
  isMatch : String → String → Bool

/-- Thread-local cache lookup (`HashMap::get` keyed by provider id). -/
def cacheLookup {α : Type} (id : Nat) : List (Nat × α) → Option α
  | [] => none
  | (k, v) :: rest => if id == k then some v else cacheLookup id rest

/-- Thread-local cache insertion (`HashMap::insert` keyed by provider id). -/
def cacheInsert {α : Type} (id : Nat) (v : α) : List (Nat × α) → List (Nat × α)
  | [] => [(id, v)]
  | (k, v') :: rest =>
    if id == k then (k, v) :: rest else (k, v') :: cacheInsert id v rest

/-- `Provider::check_url_method` through `get_compiled_regex`: a cache hit for
this provider's id reuses the cached compiled regex (which, when two providers
share an id, may belong to the other provider); a miss compiles this
provider's own pattern and caches it.  The unreachable `CacheError` arm after
a fresh insertion is omitted (the inserted key is looked up immediately). -/
def check_url_method (rx : RegexOracle) (p : Provider) (cache : List (Nat × String))
    (url method : String) : Except ProviderError Bool × List (Nat × String) :=
  match cacheLookup p.id cache with
  | some pat => (.ok (rx.isMatch pat url && p.method == method), cache)
  | none =>
    if rx.valid p.url_regex then
      (.ok (rx.isMatch p.url_regex url && p.method == method),
       cacheInsert p.id p.url_regex cache)
    else
      (.error (.InvalidRegex p.url_regex "regex compile error"), cache)

/-- Outcome of `find_provider` (the `.expect` on a `check_url_method` error is
a panic). -/
inductive FindOutcome where
  | panicked (msg : String)
  | found (p : Provider)
  | notFound
deriving DecidableEq, Repr

/-- Iteration behind `Processor::find_provider` (`Iterator::find`). -/
def find_provider_go (rx : RegexOracle) (url method : String) :
    List Provider → List (Nat × String) → FindOutcome × List (Nat × String)
  | [], cache => (.notFound, cache)
  | p :: rest, cache =>
    match check_url_method rx p cache url method with
    | (.error _, c') => (.panicked "Failed to check url method", c')
    | (.ok true, c') => (.found p, c')
    | (.ok false, c') => find_provider_go rx url method rest c'

/-- `Processor::find_provider`. -/
def find_provider (rx : RegexOracle) (proc : Processor) (cache : List (Nat × String))
    (url method : String) : FindOutcome × List (Nat × String) :=
  find_provider_go rx url method proc.config.providers cache

/-- Outcome of running a generated JavaScript program in the Boa engine:
a successful evaluation converted to a string, a JS-level error from
`Context::eval`, a failure of the result-to-string conversion, or a caught
panic of the engine (the Boa GC bug path). -/
inductive JsOutcome where
  | value (s : String)
  | evalError (msg : String)
  | convError (msg : String)
  | panicked
deriving Repr

/-- The Boa engine as an oracle from generated program text to its outcome. -/
structure JsOracle where
  run : String → JsOutcome

/-- `Provider::escape_js_string`: the chained `replace` calls are equivalent
to this character-wise expansion (the backslash doubling happens first, and
the later replacements introduce only fresh backslashes). -/
def escape_js_string (s : String) : String :=
  String.mk (s.data.map (fun c =>
    if c = '\\' then ['\\', '\\']
    else if c = '\'' then ['\\', '\'']
    else if c = '\n' then ['\\', 'n']
    else if c = '\r' then ['\\', 'r']
    else if c = '\t' then ['\\', 't']
    else [c])).flatten

/-- `Provider::extract_json_from_response`: the substring from the first `{`
to the last `}`, or the whole input when either is missing.  (When the first
`{` lies more than one position past the last `}` the source's inclusive
slice panics; that corner returns the empty list here and no theorem
evaluates it.) -/
def extract_json_from_response (response : List Char) : List Char :=
  match findCharL '{' response, rfindCharL '}' response with
  | some s, some e => (response.take (e + 1)).drop s
  | _, _ => response

/-- The generated program for non-`x.com` providers.  The indentation of the
Rust format template is compressed to single spaces; the program text is only
ever consumed by the quantified `JsOracle`, so only the embedding positions
of the script and the escaped response matter. -/
def std_exec_code (script respData : String) : String :=
  script ++ " (function() \x7b try \x7b const result = process('" ++ respData ++
    "'); return JSON.stringify(result); \x7d catch (error) \x7b throw new Error(error.message); \x7d \x7d)();"

/-- The generated program for `x.com` providers (the script is escaped and
`eval`-ed rather than pasted). -/
def x_exec_code (script respData : String) : String :=
  "eval('" ++ script ++ "'); (function() \x7b try \x7b const result = process('" ++ respData ++
    "'); return JSON.stringify(result); \x7d catch (error) \x7b throw new Error(error.message); \x7d \x7d)();"

/-- `Provider::preprocess_response`.  With no script, or an empty script, the
raw response is parsed as JSON and an unparseable body degrades to the JSON
string `"{}"` without error.  With a script, the generated program runs in a
fresh engine context through the oracle and its outcome is mapped exactly as
the source maps it. -/
def preprocess_response (js : JsOracle) (p : Provider) (response : String) :
    Except ProviderError Json :=
  match p.preprocess with
  | some pre =>
    if pre == "" then
      .ok (match parseJson response with
        | .ok j => j
        | .error _ => .str "\x7b\x7d")
    else
      let isX := p.host == "x.com"
      let code :=
        if isX then
          x_exec_code (escape_js_string pre)
            (escape_js_string (String.mk (extract_json_from_response response.data)))
        else
          std_exec_code pre (escape_js_string response)
      match js.run code with
      | .panicked =>
        .error (.PreprocessError
          "JavaScript execution completed but cleanup failed due to Boa GC bug")
      | .evalError m => .error (.PreprocessError ("Preprocess script error: " ++ m))
      | .convError m => .error (.PreprocessError ("Failed to convert result to string: " ++ m))
      | .value s =>
        match parseJson s with
        | .error m => .error (.PreprocessError ("Failed to parse result JSON: " ++ m))
        | .ok v => .ok v
  | none =>
    .ok (match parseJson response with
      | .ok j => j
      | .error _ => .str "\x7b\x7d")

/-- `Provider::get_compiled_attributes`: the cached rule list for this id, or
on a miss this provider's non-empty rule strings, freshly cached.  The
unreachable `CacheError` arm after a fresh insertion is omitted. -/
def get_compiled_attributes (p : Provider) (cache : List (Nat × List String)) :
    List String × List (Nat × List String) :=
  match cacheLookup p.id cache with
  | some rules => (rules, cache)
  | none =>
    let rules := (p.attributes.getD []).filter (fun a => !(a == ""))
    (rules, cacheInsert p.id rules cache)

/-- `Provider::get_attributes`: evaluate every rule in configured order and
render each `(key, value)` pair of the rule's map as `"key: value"`.  `ord`
is the iteration order of the per-rule `HashMap`, which the source leaves
unspecified; theorems quantify over it or constrain it to permutations. -/
def get_attributes (ord : List (String × Json) → List (String × Json)) (fuel : Nat)
    (p : Provider) (cache : List (Nat × List String)) (response : Json) :
    Except ProviderError (List String) × List (Nat × List String) :=
  let (rules, cache') := get_compiled_attributes p cache
  (rules.foldlM
    (fun acc expr =>
      match evaluate_attribute_expression fuel expr.data response with
      | .error e => .error (ProviderError.JsonpathError e)
      | .ok entries =>
        .ok (acc ++ (ord entries).map (fun kv => kv.1 ++ ": " ++ kv.2.render)))
    [], cache')

/-- The two thread-local caches touched by the processing path. -/
structure Caches where
  regex : List (Nat × String)
  attrs : List (Nat × List String)
deriving DecidableEq, Repr

/-- Empty caches: the state of a fresh worker thread. -/
def Caches.empty : Caches := ⟨[], []⟩

/-- Outcome of `Processor::process` (it can panic through the `.expect`
inside `find_provider`). -/
inductive ProcOutcome where
  | panicked (msg : String)
  | errored (e : ProviderError)
  | ok (attrs : List String)
deriving DecidableEq, Repr

/-- `Processor::process`. -/
def Processor.process (rx : RegexOracle) (js : JsOracle)
    (ord : List (String × Json) → List (String × Json)) (fuel : Nat)
    (proc : Processor) (caches : Caches) (url method response : String) :
    ProcOutcome × Caches :=
  match find_provider rx proc caches.regex url method with
  | (.panicked m, rc') => (.panicked m, { caches with regex := rc' })
  | (.notFound, rc') =>
    (.errored (.ProcessError "Failed to find provider"), { caches with regex := rc' })
  | (.found p, rc') =>
    match preprocess_response js p response with
    | .error e =>
      (.errored (.ProcessError e.toMessage), { caches with regex := rc' })
    | .ok v =>
      match get_attributes ord fuel p caches.attrs v with
      | (.error e, ac') =>
        (.errored (.ProcessError e.toMessage), { regex := rc', attrs := ac' })
      | (.ok attrs, ac') => (.ok attrs, { regex := rc', attrs := ac' })

/-! ## Verification primitives (util.rs `verify_signature`, wasm/src/lib.rs
`verify_attestation_signature` / `verify_attestation_document`) -/

/-- The p256 / sha2 / attestation-verifier crates as oracles.  `sec1Ok` is
whether `VerifyingKey::from_sec1_bytes` accepts the bytes, `sigOk` whether
`Signature::from_slice` accepts them, `verifyOk pk msg sig` the final ECDSA
verification, and `attVerify doc nonce ts` is `parse_verify_with`, returning
the payload's PCR list on success. -/
structure CryptoOracle where
  sec1Ok : List Nat → Bool
  sigOk : List Nat → Bool
  verifyOk : List Nat → List Nat → List Nat → Bool
  attVerify : List Nat → List Nat → Nat → Option (List (List Nat))
  sha256 : List Nat → List Nat

/-- Result of running one of the verification entry points: a caught return
value, or a panic (from an `expect` on a decode). -/
inductive VerifyRun where
  | panicked (msg : String)
  | ret (b : Bool)
deriving DecidableEq, Repr

/-- util.rs `verify_signature`.  The public-key and signature hex decodes go
through `expect` (panicking on bad hex); the SEC1 and signature-encoding
failures and the message hex failure are caught and return `false`. -/
def verify_signature (c : CryptoOracle)
    (hex_raw_signature hex_raw_public_key hex_application_data : String) : VerifyRun :=
  match hexDecode hex_raw_public_key with
  | none => .panicked "decode public key failed"
  | some pk =>
    if !c.sec1Ok pk then .ret false
    else
      match hexDecode hex_raw_signature with
      | none => .panicked "decode signature failed"
      | some sig =>
        if !c.sigOk sig then .ret false
        else
          match hexDecode hex_application_data with
          | none => .ret false
          | some msg => .ret (c.verifyOk pk msg sig)

/-- wasm/src/lib.rs `verify_attestation_signature`: every decode failure goes
through `expect` and panics. -/
def verify_attestation_signature (c : CryptoOracle)
    (hex_application_data hex_raw_signature hex_raw_public_key : String)
    (hash_appdata : Bool) : VerifyRun :=
  match hexDecode hex_raw_public_key with
  | none => .panicked "decode public key failed"
  | some pk =>
    if !c.sec1Ok pk then .panicked "decode P256 public key failed"
    else
      match hexDecode hex_raw_signature with
      | none => .panicked "decode signature failed"
      | some sig =>
        if !c.sigOk sig then .panicked "Failed to decode signature"
        else
          match hexDecode hex_application_data with
          | none => .panicked "decode hex app data failed"
          | some msg =>
            .ret (c.verifyOk pk (if hash_appdata then c.sha256 msg else msg) sig)

/-- wasm/src/lib.rs `verify_attestation_document`: the base64 decode of the
document and the hex decode of the nonce go through `expect` and panic; a
failed `parse_verify_with` returns `false`; on success PCR index 2 is base64
encoded and compared with the expected string. -/
def verify_attestation_document (c : CryptoOracle)
    (attestation_document nonce_expected pcr_expected : String) (timestamp : Nat) : VerifyRun :=
  match b64Decode attestation_document with
  | none => .panicked "failed to decode document"
  | some doc =>
    match hexDecode nonce_expected with
    | none => .panicked "decode nonce failed"
    | some nonce =>
      match c.attVerify doc nonce timestamp with
      | none => .ret false
      | some pcrs =>
        match pcrs[2]? with
        | none => .panicked "index out of bounds"
        | some pcr2 => .ret (b64Encode pcr2 == pcr_expected)

/-! ## The notarization finalizer (tls/notarize.rs `Verifier::finalize`) -/

/-- `VerifierError` is defined in `tls/mod.rs`, which is not among the
provided sources; its constructors are modelled from their uses in
notarize.rs: a wrapped `ProviderError`, a transport send failure propagated
by `?` out of the `poll_with` block, and a mux shutdown failure propagated by
the final `mux_fut.await?`. -/
inductive VerifierError where
  | ProviderError (e : Esper.ProviderError)
  | SendError (msg : String)
  | MuxError (msg : String)
deriving DecidableEq, Repr

/-- The `SignedSession` message (tlsn_core), as constructed by finalize.
Signatures are byte lists; the attestation `HashMap` is kept in canonical
insertion order. -/
structure SignedSession where
  application_signed_data : String
  signature : List Nat
  attestations : List (String × List Nat)
  application_data : String
deriving DecidableEq, Repr

/-- httparse as an oracle.  `reqParse` is `Request::parse` followed by the
source's `unwrap` (`none` models a parse error, i.e. a panic), yielding the
optional path and method.  `respParse` is `Response::parse` plus `unwrap`:
`some (some n)` is `Status::Complete(n)`, `some none` is `Status::Partial`.
`utf8Lossy` is `String::from_utf8_lossy`. -/
structure HttpOracle where
  reqParse : List Nat → Option (Option String × Option String)
  respParse : List Nat → Option (Option Nat)
  utf8Lossy : List Nat → String

/-- How one `finalize` call ended. -/
inductive RunResult where
  | panicked (msg : String)
  | errored (e : VerifierError)
  | completed (s : SignedSession)
deriving DecidableEq, Repr

/-- Observable outcome of a `finalize` call: the result, whether each buffer
was zeroized before returning, what (if anything) was sent over the
transport, and the thread-local caches afterwards. -/
structure FinalizeResult where
  result : RunResult
  reqZeroized : Bool
  respZeroized : Bool
  sent : Option SignedSession
  caches : Caches
deriving DecidableEq, Repr

/-- Steps 4-8 of finalize: sign each rendered claim into the attestation map,
hash `request_bytes ++ response_bytes`, sign the digest, build the
`SignedSession`, send it, zeroize the buffers, and close the mux.
`sendOk` is whether `io.send` succeeds, `muxOk` whether the mux shutdown
does; a send failure propagates out of the `poll_with` block before the
zeroize lines run, while a mux failure happens after them. -/
def finalizeSeal (sha sign : List Nat → List Nat) (request_data response_data : String)
    (attrs : List String) (caches : Caches) (sendOk muxOk : Bool) : FinalizeResult :=
  let attestations := attrs.foldl (fun acc a => hmInsert a (sign (utf8Bytes a)) acc) []
  let data := utf8Bytes request_data ++ utf8Bytes response_data
  let hash := sha data
  let ss : SignedSession :=
    { application_signed_data := hexEncode hash
      signature := sign hash
      attestations := attestations
      application_data := hexEncode data }
  if sendOk then
    if muxOk then ⟨.completed ss, true, true, some ss, caches⟩
    else ⟨.errored (.MuxError "mux shutdown failed"), true, true, some ss, caches⟩
  else ⟨.errored (.SendError "send failed"), false, false, none, caches⟩

/-- `Verifier::finalize` (notarize.rs).  Mirrors the source's control flow:
request parse (`unwrap`), response parse (`unwrap`, `Partial` treated as zero
header bytes), then — when a path was recovered — `method.expect`, a provider
lookup whose misses panic through `.expect("provider not found")`, and
`Processor::process`, whose error aborts finalize with a typed
`VerifierError::ProviderError` before anything is hashed, signed, sent or
zeroized.  Only then do the hash/sign/send/zeroize steps run. -/
def finalize (http : HttpOracle) (rx : RegexOracle) (js : JsOracle)
    (sha sign : List Nat → List Nat)
    (ord : List (String × Json) → List (String × Json)) (fuel : Nat)
    (proc : Processor) (caches : Caches) (request_data response_data : String)
    (sendOk muxOk : Bool) : FinalizeResult :=
  match http.reqParse (utf8Bytes request_data) with
  | none => ⟨.panicked "request parse failed", false, false, none, caches⟩
  | some (pathOpt, methodOpt) =>
    match http.respParse (utf8Bytes response_data) with
    | none => ⟨.panicked "response parse failed", false, false, none, caches⟩
    | some st =>
      let respSize := st.getD 0
      let body := http.utf8Lossy ((utf8Bytes response_data).drop respSize)
      match pathOpt with
      | some path =>
        match methodOpt with
        | none => ⟨.panicked "method not found", false, false, none, caches⟩
        | some m =>
          match find_provider rx proc caches.regex path m with
          | (.panicked msg, rc') =>
            ⟨.panicked msg, false, false, none, { caches with regex := rc' }⟩
          | (.notFound, rc') =>
            ⟨.panicked "provider not found", false, false, none, { caches with regex := rc' }⟩
          | (.found _, rc') =>
            match Processor.process rx js ord fuel proc { caches with regex := rc' } path m body with
            | (.panicked msg, c2) => ⟨.panicked msg, false, false, none, c2⟩
            | (.errored e, c2) => ⟨.errored (.ProviderError e), false, false, none, c2⟩
            | (.ok attrs, c2) =>
              finalizeSeal sha sign request_data response_data attrs c2 sendOk muxOk
      | none => finalizeSeal sha sign request_data response_data [] caches sendOk muxOk

/-! ## Concrete fixtures used by witnesses and counterexamples -/

/-- A regex oracle whose patterns are the anchored literals `^u$`: it agrees
with the `regex` crate on every pattern/text pair the concrete instances
below use (single-letter anchored patterns matched against single-letter
texts). -/
def rxLit : RegexOracle :=
  { valid := fun _ => true
    isMatch := fun pat url => pat == "^" ++ url ++ "$" }

/-- A JS oracle for runs that never reach a script (script-less providers). -/
def jsNever : JsOracle := ⟨fun _ => .panicked⟩

/-- Provider fixture builder: a GET provider with the given id, anchored
single-letter url pattern, rules and script. -/
def mkProvider (id : Nat) (pat : String) (attrs : Option (List String))
    (pre : Option String) : Provider :=
  { id := id, host := "example.com", url_regex := pat, target_url := "https://example.com"
    method := "GET", title := "t", description := "d", icon := "i"
    response_type := "json", attributes := attrs, preprocess := pre }

/-- The C7 rule string from the spec:
`{over_10k: to_number(performance_baseline.amount) >`10000` && performance_baseline.currency_code == 'USD'}`. -/
def c7rule : String :=
  "\x7bover_10k: to_number(performance_baseline.amount) >`10000` && performance_baseline.currency_code == 'USD'\x7d"

/-- The C7 data object
`{"performance_baseline": {"amount": "15000", "currency_code": "USD"}}`. -/
def c7data : Json :=
  .obj [("performance_baseline",
         .obj [("amount", .str "15000"), ("currency_code", .str "USD")])]

/-- Provider carrying only the C7 rule. -/
def c7provider : Provider := mkProvider 1 "^u$" (some [c7rule]) none

/-- Crypto oracle for closed runs that never consult the p256 layer. -/
def cryptoTriv : CryptoOracle :=
  ⟨fun _ => true, fun _ => true, fun _ _ _ => true, fun _ _ _ => none, id⟩

/-- Crypto oracle that rejects every SEC1 key encoding. -/
def cryptoNoKey : CryptoOracle :=
  ⟨fun _ => false, fun _ => true, fun _ _ _ => true, fun _ _ _ => none, id⟩

/-- The expression text `to_number(` ++ inner ++ `)`. -/
def tnWrap (inner : List Char) : List Char :=
  ['t', 'o', '_', 'n', 'u', 'm', 'b', 'e', 'r', '('] ++ inner ++ [')']

/-- The expression text `length(` ++ inner ++ `)`. -/
def lenWrap (inner : List Char) : List Char :=
  ['l', 'e', 'n', 'g', 't', 'h', '('] ++ inner ++ [')']

/-- The rule `{b: x, a: y}`: two fields written in the order `b`, `a`. -/
def c3rule : String := "\x7bb: x, a: y\x7d"

/-- Provider carrying only the rule `{b: x, a: y}`. -/
def c3provider : Provider := mkProvider 2 "^u$" (some [c3rule]) none

/-- Data giving `x = 1`, `y = 2`. -/
def c3data : Json := .obj [("x", .num (.int 1)), ("y", .num (.int 2))]

/-- The matching predicate of `check_url_method` on the provider's own
pattern: the compiled `url_regex` matches the url and the stored method
string equals the request method exactly (String equality, case-sensitive). -/
def provMatches (rx : RegexOracle) (url method : String) (p : Provider) : Bool :=
  rx.isMatch p.url_regex url && p.method == method

/-- First of two duplicate-id providers: pattern `^a$`. -/
def provDupA : Provider := mkProvider 21 "^a$" none none

/-- Second duplicate-id provider: pattern `^b$`, same id 21. -/
def provDupB : Provider := mkProvider 21 "^b$" none none

/-- Processor whose two providers share id 21. -/
def procDup : Processor := ⟨"", ⟨"1", [], [provDupA, provDupB]⟩⟩

/-- Two distinct-id providers both matching url `u`. -/
def provW1 : Provider := mkProvider 11 "^u$" none none

/-- Second distinct-id provider with the same pattern. -/
def provW2 : Provider := mkProvider 12 "^u$" none none

/-- Processor for the C5 witness. -/
def procW : Processor := ⟨"", ⟨"1", [], [provW1, provW2]⟩⟩

/-- Http oracle whose request parse recovers no path. -/
def httpNoPath : HttpOracle := ⟨fun _ => some (none, none), fun _ => some none, asciiLossy⟩

/-- Processor with no providers. -/
def procEmpty : Processor := ⟨"", ⟨"1", [], []⟩⟩

/-- Provider whose single rule fails on the degraded body (the field
`missing` is absent). -/
def c8provider : Provider := mkProvider 3 "^u$" (some ["\x7ba: missing\x7d"]) none

/-- Processor carrying only that provider. -/
def procC8 : Processor := ⟨"", ⟨"1", [], [c8provider]⟩⟩

/-- Http oracle recovering path `u`, method `GET`, partial response. -/
def httpFix : HttpOracle := ⟨fun _ => some (some "u", some "GET"), fun _ => some none, asciiLossy⟩

/-! ## Claim C4 -/

/-- C4: for every provider whose `preprocess` field is absent or the empty
string, `preprocess_response` never fails: a raw body that parses as JSON is
returned as that parsed value, and an unparseable body degrades to the JSON
string value `"{}"` instead of an error. -/
theorem C4_preprocess_no_script (js : JsOracle) (p : Provider) (s : String)
    (h : p.preprocess = none ∨ p.preprocess = some "") :
    (∀ j, parseJson s = .ok j → preprocess_response js p s = .ok j) ∧
    (∀ e, parseJson s = .error e → preprocess_response js p s = .ok (.str "\x7b\x7d")) := by
  constructor <;> intro x hx <;> rcases h with h | h <;> simp [preprocess_response, h, hx]

/-- Witness for C4: a non-JSON body degrades to the string value and a JSON
body passes through, for both the absent and the empty `preprocess`. -/
theorem C4_preprocess_no_script_witness :
    preprocess_response jsNever (mkProvider 9 "^u$" none none) "not json"
        = .ok (.str "\x7b\x7d") ∧
    preprocess_response jsNever (mkProvider 9 "^u$" none (some "")) "\x7b\"a\": 2\x7d"
        = .ok (.obj [("a", .num (.int 2))]) :=
  ⟨(C4_preprocess_no_script jsNever (mkProvider 9 "^u$" none none) "not json"
      (Or.inl rfl)).2 "JSON parse error" rfl,
   (C4_preprocess_no_script jsNever (mkProvider 9 "^u$" none (some "")) "\x7b\"a\": 2\x7d"
      (Or.inr rfl)).1 (.obj [("a", .num (.int 2))]) rfl⟩

/-! ## Claim C2 -/

/-- Counterexample to C2 as stated: `verify_signature` does not return
`false` for the syntactically invalid hex public key `"zz"`; it panics
through the `expect` on the hex decode. -/
theorem C2_counterexample :
    verify_signature cryptoTriv "00" "zz" "00" = .panicked "decode public key failed" ∧
    verify_signature cryptoTriv "00" "zz" "00" ≠ .ret false := by decide

/-- C2 (amended): the decode failures each primitive catches return `false`,
and the ones routed through `expect` panic.  `verify_signature` returns
`false` for a bad SEC1 key encoding, a bad signature encoding, or bad hex in
the message, but panics on bad hex in the public key or in the signature;
`verify_attestation_signature` panics on every malformed input;
`verify_attestation_document` panics on bad base64 of the document or bad
hex of the nonce, and returns `false` only when the decoded document fails
attestation verification. -/
theorem C2_verify_primitives_malformed (c : CryptoOracle)
    (sig pub msg doc nonce pcr : String) (ts : Nat) (hb : Bool) :
    (hexDecode pub = none →
      verify_signature c sig pub msg = .panicked "decode public key failed" ∧
      verify_attestation_signature c msg sig pub hb = .panicked "decode public key failed") ∧
    (∀ pk, hexDecode pub = some pk → c.sec1Ok pk = false →
      verify_signature c sig pub msg = .ret false ∧
      verify_attestation_signature c msg sig pub hb
        = .panicked "decode P256 public key failed") ∧
    (∀ pk, hexDecode pub = some pk → c.sec1Ok pk = true → hexDecode sig = none →
      verify_signature c sig pub msg = .panicked "decode signature failed" ∧
      verify_attestation_signature c msg sig pub hb = .panicked "decode signature failed") ∧
    (∀ pk sg, hexDecode pub = some pk → c.sec1Ok pk = true → hexDecode sig = some sg →
      c.sigOk sg = false →
      verify_signature c sig pub msg = .ret false ∧
      verify_attestation_signature c msg sig pub hb = .panicked "Failed to decode signature") ∧
    (∀ pk sg, hexDecode pub = some pk → c.sec1Ok pk = true → hexDecode sig = some sg →
      c.sigOk sg = true → hexDecode msg = none →
      verify_signature c sig pub msg = .ret false ∧
      verify_attestation_signature c msg sig pub hb = .panicked "decode hex app data failed") ∧
    (b64Decode doc = none →
      verify_attestation_document c doc nonce pcr ts = .panicked "failed to decode document") ∧
    (∀ d, b64Decode doc = some d → hexDecode nonce = none →
      verify_attestation_document c doc nonce pcr ts = .panicked "decode nonce failed") ∧
    (∀ d n, b64Decode doc = some d → hexDecode nonce = some n → c.attVerify d n ts = none →
      verify_attestation_document c doc nonce pcr ts = .ret false) := by
  refine ⟨?_, ?_, ?_, ?_, ?_, ?_, ?_, ?_⟩
  · intro h
    simp [verify_signature, verify_attestation_signature, h]
  · intro pk h hk
    simp [verify_signature, verify_attestation_signature, h, hk]
  · intro pk h hk hs
    simp [verify_signature, verify_attestation_signature, h, hk, hs]
  · intro pk sg h hk hs hg
    simp [verify_signature, verify_attestation_signature, h, hk, hs, hg]
  · intro pk sg h hk hs hg hm
    simp [verify_signature, verify_attestation_signature, h, hk, hs, hg, hm]
  · intro h
    simp [verify_attestation_document, h]
  · intro d h hn
    simp [verify_attestation_document, h, hn]
  · intro d n h hn ha
    simp [verify_attestation_document, h, hn, ha]

/-- Witness for C2 (amended) at concrete inputs: a rejected SEC1 key encoding
returns `false` from `verify_signature`, bad hex in the message returns
`false`, and a bad base64 document panics `verify_attestation_document`. -/
theorem C2_verify_primitives_malformed_witness :
    verify_signature cryptoNoKey "00" "00" "00" = .ret false ∧
    verify_signature cryptoTriv "00" "00" "zz" = .ret false ∧
    verify_attestation_document cryptoTriv "####" "00" "p" 7
      = .panicked "failed to decode document" :=
  ⟨((C2_verify_primitives_malformed cryptoNoKey "00" "00" "00" "" "" "" 0 false).2.1
      [0] rfl rfl).1,
   ((C2_verify_primitives_malformed cryptoTriv "00" "00" "zz" "" "" "" 0 false).2.2.2.2.1
      [0] [0] rfl rfl rfl rfl rfl).1,
   (C2_verify_primitives_malformed cryptoTriv "" "" "" "####" "00" "p" 7 false).2.2.2.2.2.1 rfl⟩

/-! ## Claims C9 and C10: the `to_number` and `length` branches -/

lemma ok_bind {ε α β : Type} (a : α) (f : α → Except ε β) :
    (Except.ok a >>= f : Except ε β) = f a := rfl

lemma err_bind {ε α β : Type} (e : ε) (f : α → Except ε β) :
    (Except.error e >>= f : Except ε β) = Except.error e := rfl

lemma startsWithL_append (pre l : List Char) : startsWithL pre (pre ++ l) = true := by
  induction pre with
  | nil => rfl
  | cons a as ih => simp [startsWithL, ih]

lemma endsWithL_concat (l : List Char) (b : Char) : endsWithL [b] (l ++ [b]) = true := by
  simp [endsWithL, startsWithL]

lemma trimL_of_ends (a b : Char) (mid : List Char)
    (ha : a.isWhitespace = false) (hb : b.isWhitespace = false) :
    trimL (a :: (mid ++ [b])) = a :: (mid ++ [b]) := by
  simp [trimL, List.dropWhile_cons, ha, hb, List.reverse_append, List.dropWhile]

lemma tnWrap_trim (inner : List Char) : trimL (tnWrap inner) = tnWrap inner := by
  have h := trimL_of_ends 't' ')' (['o', '_', 'n', 'u', 'm', 'b', 'e', 'r', '('] ++ inner)
    (by decide) (by decide)
  simpa [tnWrap] using h

lemma tnWrap_starts (inner : List Char) :
    startsWithL ['t', 'o', '_', 'n', 'u', 'm', 'b', 'e', 'r', '('] (tnWrap inner) = true := by
  have h := startsWithL_append ['t', 'o', '_', 'n', 'u', 'm', 'b', 'e', 'r', '(']
    (inner ++ [')'])
  simpa [tnWrap] using h

lemma tnWrap_ends (inner : List Char) : endsWithL [')'] (tnWrap inner) = true := by
  have h := endsWithL_concat (['t', 'o', '_', 'n', 'u', 'm', 'b', 'e', 'r', '('] ++ inner) ')'
  simpa [tnWrap] using h

lemma tnWrap_drop (inner : List Char) : ((tnWrap inner).drop 10).dropLast = inner := by
  have h : (tnWrap inner).drop 10 = inner ++ [')'] := by
    have h' := List.drop_left ['t', 'o', '_', 'n', 'u', 'm', 'b', 'e', 'r', '('] (inner ++ [')'])
    simpa [tnWrap] using h'
  simp [h]

/-- C9: for an expression `to_number(inner)` (one in which the operator scan
finds no top-level `&&`, `>` or `==`, so evaluation reaches the `to_number`
branch): a JSON number produced by `inner` passes through unchanged (so
`to_number` is idempotent on numeric values); a JSON string parses as a
float, with an explicit error when the parse yields a non-finite value
(`Number::from_f64` rejects it — a success is always the finite parsed value)
or fails to parse; every other JSON type is an error. -/
theorem C9_to_number_semantics (data : Json) (fuel : Nat) (inner : List Char)
    (hA : find_operator_position (tnWrap inner) ['&', '&'] = none)
    (hG : find_operator_position (tnWrap inner) ['>'] = none)
    (hE : find_operator_position (tnWrap inner) ['=', '='] = none) :
    (∀ n, evaluate_field_expression data fuel inner = .ok (.num n) →
        evaluate_field_expression data (fuel + 1) (tnWrap inner) = .ok (.num n)) ∧
    (∀ s q, evaluate_field_expression data fuel inner = .ok (.str s) →
        parseF64 s.data = some (.finite q) →
        evaluate_field_expression data (fuel + 1) (tnWrap inner) = .ok (.num (.float q))) ∧
    (∀ s f, evaluate_field_expression data fuel inner = .ok (.str s) →
        parseF64 s.data = some f → f.isFinite = false →
        evaluate_field_expression data (fuel + 1) (tnWrap inner)
          = .error "Invalid number value (NaN or infinite)") ∧
    (∀ s, evaluate_field_expression data fuel inner = .ok (.str s) →
        parseF64 s.data = none →
        evaluate_field_expression data (fuel + 1) (tnWrap inner)
          = .error "Cannot convert value to number") ∧
    (∀ v, evaluate_field_expression data fuel inner = .ok v →
        (∀ n, v ≠ .num n) → (∀ s, v ≠ .str s) →
        evaluate_field_expression data (fuel + 1) (tnWrap inner)
          = .error "Cannot convert value to number") := by
  refine ⟨?_, ?_, ?_, ?_, ?_⟩
  · intro n hin
    simp only [evaluate_field_expression, tnWrap_trim, hA, hG, hE, tnWrap_starts, tnWrap_ends,
      tnWrap_drop, hin]
    rfl
  · intro s q hin hq
    simp only [evaluate_field_expression, tnWrap_trim, hA, hG, hE, tnWrap_starts, tnWrap_ends,
      tnWrap_drop, hin]
    simp [ok_bind, hq, numberFromF64]
  · intro s f hin hq hf
    cases f with
    | finite q => simp [Jf.isFinite] at hf
    | nan =>
      simp only [evaluate_field_expression, tnWrap_trim, hA, hG, hE, tnWrap_starts, tnWrap_ends,
        tnWrap_drop, hin]
      simp [ok_bind, hq, numberFromF64]
    | inf =>
      simp only [evaluate_field_expression, tnWrap_trim, hA, hG, hE, tnWrap_starts, tnWrap_ends,
        tnWrap_drop, hin]
      simp [ok_bind, hq, numberFromF64]
    | neginf =>
      simp only [evaluate_field_expression, tnWrap_trim, hA, hG, hE, tnWrap_starts, tnWrap_ends,
        tnWrap_drop, hin]
      simp [ok_bind, hq, numberFromF64]
  · intro s hin hq
    simp only [evaluate_field_expression, tnWrap_trim, hA, hG, hE, tnWrap_starts, tnWrap_ends,
      tnWrap_drop, hin]
    simp [ok_bind, hq]
  · intro v hin hn hs
    cases v with
    | num n => exact absurd rfl (hn n)
    | str s => exact absurd rfl (hs s)
    | null =>
      simp only [evaluate_field_expression, tnWrap_trim, hA, hG, hE, tnWrap_starts, tnWrap_ends,
        tnWrap_drop, hin]
      rfl
    | bool b =>
      simp only [evaluate_field_expression, tnWrap_trim, hA, hG, hE, tnWrap_starts, tnWrap_ends,
        tnWrap_drop, hin]
      rfl
    | arr xs =>
      simp only [evaluate_field_expression, tnWrap_trim, hA, hG, hE, tnWrap_starts, tnWrap_ends,
        tnWrap_drop, hin]
      rfl
    | obj fs =>
      simp only [evaluate_field_expression, tnWrap_trim, hA, hG, hE, tnWrap_starts, tnWrap_ends,
        tnWrap_drop, hin]
      rfl

/-- Witness for C9: pass-through of an integer, parse of a numeric string,
explicit errors for an infinite parse, a failed parse and a boolean. -/
theorem C9_to_number_semantics_witness :
    evaluate_field_expression (Json.obj [("x", .num (.int 7))]) 2 (tnWrap ['x'])
        = .ok (.num (.int 7)) ∧
    evaluate_field_expression (Json.obj [("x", .str "15000")]) 2 (tnWrap ['x'])
        = .ok (.num (.float 15000)) ∧
    evaluate_field_expression (Json.obj [("x", .str "inf")]) 2 (tnWrap ['x'])
        = .error "Invalid number value (NaN or infinite)" ∧
    evaluate_field_expression (Json.obj [("x", .str "abc")]) 2 (tnWrap ['x'])
        = .error "Cannot convert value to number" ∧
    evaluate_field_expression (Json.obj [("x", .bool true)]) 2 (tnWrap ['x'])
        = .error "Cannot convert value to number" :=
  ⟨(C9_to_number_semantics (Json.obj [("x", .num (.int 7))]) 1 ['x']
      (by decide) (by decide) (by decide)).1 (.int 7) rfl,
   (C9_to_number_semantics (Json.obj [("x", .str "15000")]) 1 ['x']
      (by decide) (by decide) (by decide)).2.1 "15000" 15000 rfl (by decide),
   (C9_to_number_semantics (Json.obj [("x", .str "inf")]) 1 ['x']
      (by decide) (by decide) (by decide)).2.2.1 "inf" .inf rfl (by decide) rfl,
   (C9_to_number_semantics (Json.obj [("x", .str "abc")]) 1 ['x']
      (by decide) (by decide) (by decide)).2.2.2.1 "abc" rfl (by decide),
   (C9_to_number_semantics (Json.obj [("x", .bool true)]) 1 ['x']
      (by decide) (by decide) (by decide)).2.2.2.2 (.bool true) rfl
      (fun n h => Json.noConfusion h) (fun s h => Json.noConfusion h)⟩

lemma lenWrap_trim (inner : List Char) : trimL (lenWrap inner) = lenWrap inner := by
  have h := trimL_of_ends 'l' ')' (['e', 'n', 'g', 't', 'h', '('] ++ inner)
    (by decide) (by decide)
  simpa [lenWrap] using h

lemma lenWrap_starts (inner : List Char) :
    startsWithL ['l', 'e', 'n', 'g', 't', 'h', '('] (lenWrap inner) = true := by
  have h := startsWithL_append ['l', 'e', 'n', 'g', 't', 'h', '('] (inner ++ [')'])
  simpa [lenWrap] using h

lemma lenWrap_not_tn (inner : List Char) :
    startsWithL ['t', 'o', '_', 'n', 'u', 'm', 'b', 'e', 'r', '('] (lenWrap inner) = false := by
  simp [lenWrap, startsWithL]

lemma lenWrap_ends (inner : List Char) : endsWithL [')'] (lenWrap inner) = true := by
  have h := endsWithL_concat (['l', 'e', 'n', 'g', 't', 'h', '('] ++ inner) ')'
  simpa [lenWrap] using h

lemma lenWrap_drop (inner : List Char) : ((lenWrap inner).drop 7).dropLast = inner := by
  have h : (lenWrap inner).drop 7 = inner ++ [')'] := by
    have h' := List.drop_left ['l', 'e', 'n', 'g', 't', 'h', '('] (inner ++ [')'])
    simpa [lenWrap] using h'
  simp [h]

/-- C10: for an expression `length(inner)` (one in which the operator scan
finds no top-level `&&`, `>` or `==`): a JSON string produced by `inner`
yields its UTF-8 byte count (`str::len`, so a multi-byte character counts
more than one — not the character count); a JSON array yields its element
count; every other JSON type is an error. -/
theorem C10_length_semantics (data : Json) (fuel : Nat) (inner : List Char)
    (hA : find_operator_position (lenWrap inner) ['&', '&'] = none)
    (hG : find_operator_position (lenWrap inner) ['>'] = none)
    (hE : find_operator_position (lenWrap inner) ['=', '='] = none) :
    (∀ s, evaluate_field_expression data fuel inner = .ok (.str s) →
        evaluate_field_expression data (fuel + 1) (lenWrap inner)
          = .ok (.num (.int (s.utf8ByteSize : Int)))) ∧
    (∀ xs, evaluate_field_expression data fuel inner = .ok (.arr xs) →
        evaluate_field_expression data (fuel + 1) (lenWrap inner)
          = .ok (.num (.int (xs.length : Int)))) ∧
    (∀ v, evaluate_field_expression data fuel inner = .ok v →
        (∀ s, v ≠ .str s) → (∀ xs, v ≠ .arr xs) →
        evaluate_field_expression data (fuel + 1) (lenWrap inner)
          = .error "Cannot get length of value") := by
  refine ⟨?_, ?_, ?_⟩
  · intro s hin
    simp only [evaluate_field_expression, lenWrap_trim, hA, hG, hE, lenWrap_not_tn,
      lenWrap_starts, lenWrap_ends, lenWrap_drop, hin]
    rfl
  · intro xs hin
    simp only [evaluate_field_expression, lenWrap_trim, hA, hG, hE, lenWrap_not_tn,
      lenWrap_starts, lenWrap_ends, lenWrap_drop, hin]
    rfl
  · intro v hin hs ha
    cases v with
    | str s => exact absurd rfl (hs s)
    | arr xs => exact absurd rfl (ha xs)
    | null =>
      simp only [evaluate_field_expression, lenWrap_trim, hA, hG, hE, lenWrap_not_tn,
        lenWrap_starts, lenWrap_ends, lenWrap_drop, hin]
      rfl
    | bool b =>
      simp only [evaluate_field_expression, lenWrap_trim, hA, hG, hE, lenWrap_not_tn,
        lenWrap_starts, lenWrap_ends, lenWrap_drop, hin]
      rfl
    | num n =>
      simp only [evaluate_field_expression, lenWrap_trim, hA, hG, hE, lenWrap_not_tn,
        lenWrap_starts, lenWrap_ends, lenWrap_drop, hin]
      rfl
    | obj fs =>
      simp only [evaluate_field_expression, lenWrap_trim, hA, hG, hE, lenWrap_not_tn,
        lenWrap_starts, lenWrap_ends, lenWrap_drop, hin]
      rfl

/-- Witness for C10: the two-character string `éa` has length 3 (UTF-8
bytes), a two-element array has length 2, and a number is an error. -/
theorem C10_length_semantics_witness :
    evaluate_field_expression (Json.obj [("x", .str "éa")]) 2 (lenWrap ['x'])
        = .ok (.num (.int 3)) ∧
    ("éa" : String).data.length = 2 ∧
    evaluate_field_expression (Json.obj [("x", .arr [.null, .null])]) 2 (lenWrap ['x'])
        = .ok (.num (.int 2)) ∧
    evaluate_field_expression (Json.obj [("x", .num (.int 5))]) 2 (lenWrap ['x'])
        = .error "Cannot get length of value" :=
  ⟨(C10_length_semantics (Json.obj [("x", .str "éa")]) 1 ['x']
      (by decide) (by decide) (by decide)).1 "éa" rfl,
   by decide,
   (C10_length_semantics (Json.obj [("x", .arr [.null, .null])]) 1 ['x']
      (by decide) (by decide) (by decide)).2.1 [.null, .null] rfl,
   (C10_length_semantics (Json.obj [("x", .num (.int 5))]) 1 ['x']
      (by decide) (by decide) (by decide)).2.2 (.num (.int 5)) rfl
      (fun s h => Json.noConfusion h) (fun xs h => Json.noConfusion h)⟩

/-! ## Claim C7 -/

lemma get_attributes_single (ord : List (String × Json) → List (String × Json)) (F : Nat)
    (p : Provider) (rule : String) (data : Json) (entries : List (String × Json))
    (hp : p.attributes = some [rule]) (hr : (rule == "") = false)
    (he : evaluate_attribute_expression F rule.data data = .ok entries) :
    (get_attributes ord F p [] data).1
      = .ok ((ord entries).map (fun kv => kv.1 ++ ": " ++ kv.2.render)) := by
  simp [get_attributes, get_compiled_attributes, cacheLookup, hp, hr, List.filter, he, ok_bind]

/-- C7: evaluating the single rule
`{over_10k: to_number(performance_baseline.amount) >`10000` && performance_baseline.currency_code == 'USD'}`
via `get_attributes` against
`{"performance_baseline": {"amount": "15000", "currency_code": "USD"}}`
returns exactly `["over_10k: true"]`: the `&&` splits first, its left side
goes through `to_number` and the `>` comparison against the backtick numeric
literal, its right side compares the dotted-path lookup with the quoted
string literal.  `ord` ranges over all iteration orders of the one-entry
field map, and the fuel is any value at least the recursion depth 4. -/
theorem C7_rule_evaluation (ord : List (String × Json) → List (String × Json))
    (hord : ∀ l, (ord l).Perm l) (fuel : Nat) :
    (get_attributes ord (fuel + 4) c7provider [] c7data).1 = .ok ["over_10k: true"] := by
  have hs : ord [("over_10k", Json.bool true)] = [("over_10k", Json.bool true)] :=
    List.perm_singleton.mp (hord _)
  have h := get_attributes_single ord (fuel + 4) c7provider c7rule c7data
    [("over_10k", Json.bool true)] rfl (by decide) rfl
  rw [h, hs]
  rfl

/-- Witness for C7 at the identity iteration order and minimal fuel. -/
theorem C7_rule_evaluation_witness :
    (get_attributes id 4 c7provider [] c7data).1 = .ok ["over_10k: true"] :=
  C7_rule_evaluation id (fun l => List.Perm.refl l) 0

/-! ## Claim C3 -/

/-- Counterexample to C3 as stated: within one rule the pairs are emitted in
the per-rule `HashMap`'s iteration order, which Rust leaves unspecified (any
permutation is realizable); under the reversed order the rule `{b: x, a: y}`
renders `["a: 2", "b: 1"]`, which is not the written field order
`["b: 1", "a: 2"]`. -/
theorem C3_counterexample :
    (get_attributes List.reverse 50 c3provider [] c3data).1 = .ok ["a: 2", "b: 1"] ∧
    (["a: 2", "b: 1"] : List String) ≠ ["b: 1", "a: 2"] := by
  exact ⟨rfl, by decide⟩

/-- Fold step of `get_attributes` over the rule list. -/
lemma get_attributes_fold (ord : List (String × Json) → List (String × Json))
    (hord : ∀ l, (ord l).Perm l) (fuel : Nat) (data : Json) :
    ∀ (rules : List String) (acc l : List String),
      rules.foldlM
        (fun (acc : List String) (expr : String) =>
          match evaluate_attribute_expression fuel expr.data data with
          | Except.error e =>
            (Except.error (ProviderError.JsonpathError e) : Except ProviderError (List String))
          | Except.ok entries =>
            Except.ok (acc ++ (ord entries).map (fun kv => kv.1 ++ ": " ++ kv.2.render)))
        acc = Except.ok l →
      ∃ segs : List (List String),
        l = acc ++ segs.flatten ∧
        List.Forall₂
          (fun (r : String) (seg : List String) => ∃ entries,
            evaluate_attribute_expression fuel r.data data = .ok entries ∧
            seg.Perm (entries.map (fun kv => kv.1 ++ ": " ++ kv.2.render)))
          rules segs := by
  intro rules
  induction rules with
  | nil =>
    intro acc l h
    have hacc : acc = l := by
      simpa [List.foldlM, pure, Except.pure] using h
    exact ⟨[], by simp [hacc], List.Forall₂.nil⟩
  | cons r rest ih =>
    intro acc l h
    rcases he : evaluate_attribute_expression fuel r.data data with e | entries
    · simp [List.foldlM, he, err_bind] at h
    · simp only [List.foldlM, he, ok_bind] at h
      rcases ih _ _ h with ⟨segs, hl, hf⟩
      refine ⟨(ord entries).map (fun kv => kv.1 ++ ": " ++ kv.2.render) :: segs, ?_, ?_⟩
      · simpa [List.append_assoc] using hl
      · exact List.Forall₂.cons ⟨entries, he, ((hord entries).map _)⟩ hf

/-- C3 (amended): with a fresh attributes cache, the rendered pairs produced
by `get_attributes` group into consecutive segments, one per configured
non-empty rule string in configured order (pairs of earlier rules precede
pairs of later rules); within a rule, the segment is some permutation of the
rule's evaluated key-value map — the `HashMap` iteration order, which is
unspecified, so neither the written field order nor reproducibility across
evaluations is guaranteed, and duplicate keys within a rule collapse into
the map. -/
theorem C3_rule_order (ord : List (String × Json) → List (String × Json))
    (hord : ∀ l, (ord l).Perm l) (fuel : Nat) (p : Provider) (data : Json) (l : List String)
    (h : (get_attributes ord fuel p [] data).1 = .ok l) :
    ∃ segs : List (List String),
      l = segs.flatten ∧
      List.Forall₂
        (fun (r : String) (seg : List String) => ∃ entries,
          evaluate_attribute_expression fuel r.data data = .ok entries ∧
          seg.Perm (entries.map (fun kv => kv.1 ++ ": " ++ kv.2.render)))
        ((p.attributes.getD []).filter (fun a => !(a == ""))) segs := by
  simp only [get_attributes, get_compiled_attributes, cacheLookup] at h
  rcases get_attributes_fold ord hord fuel data _ [] l h with ⟨segs, hl, hf⟩
  exact ⟨segs, by simpa using hl, hf⟩

/-- Witness for C3 (amended) at the identity iteration order on the
`{b: x, a: y}` fixture. -/
theorem C3_rule_order_witness :
    ∃ segs : List (List String),
      (["b: 1", "a: 2"] : List String) = segs.flatten ∧
      List.Forall₂
        (fun (r : String) (seg : List String) => ∃ entries,
          evaluate_attribute_expression 50 r.data c3data = .ok entries ∧
          seg.Perm (entries.map (fun kv => kv.1 ++ ": " ++ kv.2.render)))
        ((c3provider.attributes.getD []).filter (fun a => !(a == ""))) segs :=
  C3_rule_order id (fun l => List.Perm.refl l) 50 c3provider c3data ["b: 1", "a: 2"] rfl

/-! ## Claim C5 -/

lemma cacheLookup_insert {α : Type} (i j : Nat) (v : α) (c : List (Nat × α)) :
    cacheLookup j (cacheInsert i v c) = if j == i then some v else cacheLookup j c := by
  induction c with
  | nil => simp [cacheInsert, cacheLookup]
  | cons kv rest ih =>
    obtain ⟨k, w⟩ := kv
    rcases eq_or_ne i k with hik | hik
    · subst hik
      rcases eq_or_ne j i with hji | hji <;> simp [cacheInsert, cacheLookup, hji]
    · rcases eq_or_ne j k with hjk | hjk
      · subst hjk
        have hji : j ≠ i := Ne.symm hik
        simp [cacheInsert, cacheLookup, hik, hji]
      · simp [cacheInsert, cacheLookup, hik, hjk, ih]

lemma find_provider_go_fresh (rx : RegexOracle) (url method : String) :
    ∀ (ps : List Provider) (cache : List (Nat × String)),
      (∀ p ∈ ps, cacheLookup p.id cache = none) →
      (ps.map Provider.id).Nodup →
      (∀ p ∈ ps, rx.valid p.url_regex = true) →
      (find_provider_go rx url method ps cache).1 =
        (match ps.find? (provMatches rx url method) with
          | some p => FindOutcome.found p
          | none => FindOutcome.notFound) := by
  intro ps
  induction ps with
  | nil => intro cache _ _ _; rfl
  | cons p rest ih =>
    intro cache hc hn hv
    have hcp : cacheLookup p.id cache = none := hc p (by simp)
    have hvp : rx.valid p.url_regex = true := hv p (by simp)
    rcases hm : rx.isMatch p.url_regex url && p.method == method with _ | _
    · have hrec := ih (cacheInsert p.id p.url_regex cache)
        (fun q hq => by
          have hqid : q.id ≠ p.id := by
            intro hqp
            have hni := (List.nodup_cons.mp hn).1
            exact hni (by simpa [hqp] using List.mem_map_of_mem Provider.id hq)
          simp [cacheLookup_insert, hqid, hc q (by simp [hq])])
        (List.nodup_cons.mp hn).2
        (fun q hq => hv q (by simp [hq]))
      simp only [find_provider_go, check_url_method, hcp, hvp, if_true, hm, List.find?,
        provMatches]
      simpa using hrec
    · simp [find_provider_go, check_url_method, hcp, hvp, hm, List.find?, provMatches]

/-- C5 (amended): on a fresh thread (empty compiled-regex cache), for a
processor whose providers have pairwise distinct ids and compilable regexes,
`find_provider` returns the first provider in configured order whose own
compiled `url_regex` matches the url and whose stored method string equals
the request method exactly (String equality, so case-sensitive), and returns
none exactly when no configured provider satisfies both conditions.
The distinct-id hypothesis is necessary: colliding ids share one cached
regex (see the counterexample). -/
theorem C5_find_provider_first_match (rx : RegexOracle) (proc : Processor)
    (url method : String)
    (hid : (proc.config.providers.map Provider.id).Nodup)
    (hval : proc.config.providers.all (fun p => rx.valid p.url_regex) = true) :
    (find_provider rx proc [] url method).1 =
      (match proc.config.providers.find? (provMatches rx url method) with
        | some p => FindOutcome.found p
        | none => FindOutcome.notFound) ∧
    ((find_provider rx proc [] url method).1 = .notFound ↔
      ∀ p ∈ proc.config.providers, provMatches rx url method p = false) := by
  have hval' : ∀ p ∈ proc.config.providers, rx.valid p.url_regex = true := by
    intro p hp
    exact List.all_eq_true.mp hval p hp
  have h := find_provider_go_fresh rx url method proc.config.providers []
    (fun p _ => rfl) hid hval'
  refine ⟨h, ?_⟩
  rw [show (find_provider rx proc [] url method).1 = _ from h]
  rcases hf : proc.config.providers.find? (provMatches rx url method) with _ | q
  · simp only [List.find?_eq_none] at hf
    simp only [hf]
    constructor
    · intro _ p hp
      simpa using hf p hp
    · intro _
      trivial
  · have hq := List.find?_some hf
    have hqm := List.mem_of_find?_eq_some hf
    constructor
    · intro hcon
      exact FindOutcome.noConfusion hcon
    · intro hall
      rw [hall q hqm] at hq
      exact Bool.noConfusion hq

/-- Counterexample to C5 as stated: with two providers sharing id 21 the
compiled-regex cache collides — on url `b` the second provider is checked
against the first provider's cached pattern `^a$`, so `find_provider`
returns none although the second provider's own `url_regex` matches `b` and
its method equals `GET`. -/
theorem C5_counterexample :
    (find_provider rxLit procDup [] "b" "GET").1 = .notFound ∧
    provMatches rxLit "b" "GET" provDupB = true := by decide

/-- Witness for C5 (amended): when two providers' regexes both match, the
one earlier in configuration order is returned. -/
theorem C5_find_provider_first_match_witness :
    (find_provider rxLit procW [] "u" "GET").1 = .found provW1 :=
  ((C5_find_provider_first_match rxLit procW "u" "GET" (by decide) (by decide)).1).trans
    (by rfl)

/-! ## Claim C6 -/

lemma finalizeSeal_completed (sha sign : List Nat → List Nat) (rq rs : String)
    (attrs : List String) (caches : Caches) (sendOk muxOk : Bool) (ss : SignedSession)
    (h : (finalizeSeal sha sign rq rs attrs caches sendOk muxOk).result = .completed ss) :
    ss.application_signed_data = hexEncode (sha (utf8Bytes rq ++ utf8Bytes rs)) ∧
    ss.signature = sign (sha (utf8Bytes rq ++ utf8Bytes rs)) ∧
    ss.application_data = hexEncode (utf8Bytes rq ++ utf8Bytes rs) := by
  cases sendOk
  · simp [finalizeSeal] at h
  · cases muxOk
    · simp [finalizeSeal] at h
    · simp only [finalizeSeal, if_true] at h
      have h' := (RunResult.completed.injEq _ _).mp h
      rw [← h']
      exact ⟨rfl, rfl, rfl⟩

/-- C6: every finalize call that completes returns a `SignedSession` whose
`application_signed_data` is the hex encoding of the SHA-256 digest of the
request bytes immediately followed by the response bytes, whose `signature`
is the signer's signature over that digest, and whose `application_data` is
the hex encoding of the same request-then-response concatenation. -/
theorem C6_signed_session_shape (http : HttpOracle) (rx : RegexOracle) (js : JsOracle)
    (sha sign : List Nat → List Nat) (ord : List (String × Json) → List (String × Json))
    (fuel : Nat) (proc : Processor) (caches : Caches)
    (request_data response_data : String) (sendOk muxOk : Bool) (ss : SignedSession)
    (h : (finalize http rx js sha sign ord fuel proc caches request_data response_data
        sendOk muxOk).result = .completed ss) :
    ss.application_signed_data
        = hexEncode (sha (utf8Bytes request_data ++ utf8Bytes response_data)) ∧
    ss.signature = sign (sha (utf8Bytes request_data ++ utf8Bytes response_data)) ∧
    ss.application_data = hexEncode (utf8Bytes request_data ++ utf8Bytes response_data) := by
  unfold finalize at h
  repeat' split at h
  all_goals try (simp at h)
  all_goals try (split at h)
  all_goals first
    | simp at h
    | exact finalizeSeal_completed _ _ _ _ _ _ _ _ _ h

/-- Witness for C6: a concrete completed run (no path recovered, claim-less
session) has the stated digest, signature and data fields. -/
theorem C6_signed_session_shape_witness :
    (finalize httpNoPath rxLit jsNever id id id 50 procEmpty Caches.empty "req" "body"
        true true).result
      = .completed
          { application_signed_data := hexEncode (utf8Bytes "req" ++ utf8Bytes "body")
            signature := utf8Bytes "req" ++ utf8Bytes "body"
            attestations := []
            application_data := hexEncode (utf8Bytes "req" ++ utf8Bytes "body") } ∧
    ((finalize httpNoPath rxLit jsNever id id id 50 procEmpty Caches.empty "req" "body"
        true true).result = .completed
          { application_signed_data := hexEncode (utf8Bytes "req" ++ utf8Bytes "body")
            signature := utf8Bytes "req" ++ utf8Bytes "body"
            attestations := []
            application_data := hexEncode (utf8Bytes "req" ++ utf8Bytes "body") } →
      (hexEncode (utf8Bytes "req" ++ utf8Bytes "body")
          = hexEncode (id (utf8Bytes "req" ++ utf8Bytes "body")) ∧
       (utf8Bytes "req" ++ utf8Bytes "body" : List Nat)
          = id (id (utf8Bytes "req" ++ utf8Bytes "body")) ∧
       hexEncode (utf8Bytes "req" ++ utf8Bytes "body")
          = hexEncode (utf8Bytes "req" ++ utf8Bytes "body"))) :=
  ⟨rfl, fun h => C6_signed_session_shape httpNoPath rxLit jsNever id id id 50 procEmpty
    Caches.empty "req" "body" true true _ h⟩

/-! ## Claim C8 -/

/-- C8 (amended): the request and response buffers are zeroized exactly on
the runs in which the `SignedSession` was successfully sent (including a
subsequent mux-shutdown failure, which happens after the zeroize lines); on
a request/response-parse panic, a provider-lookup panic, an
evaluation-failure early return, or a transport-send failure, finalize
returns without zeroizing either buffer. -/
theorem C8_zeroized_iff_sent (http : HttpOracle) (rx : RegexOracle) (js : JsOracle)
    (sha sign : List Nat → List Nat) (ord : List (String × Json) → List (String × Json))
    (fuel : Nat) (proc : Processor) (caches : Caches)
    (request_data response_data : String) (sendOk muxOk : Bool) :
    ((finalize http rx js sha sign ord fuel proc caches request_data response_data
        sendOk muxOk).reqZeroized
      = (finalize http rx js sha sign ord fuel proc caches request_data response_data
        sendOk muxOk).sent.isSome) ∧
    ((finalize http rx js sha sign ord fuel proc caches request_data response_data
        sendOk muxOk).respZeroized
      = (finalize http rx js sha sign ord fuel proc caches request_data response_data
        sendOk muxOk).sent.isSome) := by
  constructor <;>
  · unfold finalize finalizeSeal
    repeat' split <;> try rfl
    all_goals try (dsimp only []; split <;> rfl)
    all_goals simp

/-- Counterexample to C8 as stated: an evaluation failure makes finalize
return the typed error with both in-memory buffers left un-zeroized — the
zeroize lines run only after a successful transport send. -/
theorem C8_counterexample :
    (finalize httpFix rxLit jsNever id id id 50 procC8 Caches.empty "req" "body"
        true true).reqZeroized = false ∧
    (finalize httpFix rxLit jsNever id id id 50 procC8 Caches.empty "req" "body"
        true true).respZeroized = false ∧
    (finalize httpFix rxLit jsNever id id id 50 procC8 Caches.empty "req" "body"
        true true).result
      = .errored (.ProviderError
          (.ProcessError "JSONPath search error: Field 'missing' not found")) :=
  ⟨rfl, rfl, rfl⟩

/-! ## Claim C1 -/

/-- C1 (amended): a finalize call whose parsed request has a path but no
matching provider panics through `.expect("provider not found")` rather than
reporting a typed error; a preprocessing or attribute-evaluation failure
makes finalize return the typed `VerifierError::ProviderError` early —
before the transcript is hashed, signed, sent or zeroized — rather than
completing step 4; only a request with no recovered path degrades to a
signed, claim-less session. -/
theorem C1_finalize_failure_paths (http : HttpOracle) (rx : RegexOracle) (js : JsOracle)
    (sha sign : List Nat → List Nat) (ord : List (String × Json) → List (String × Json))
    (fuel : Nat) (proc : Processor) (caches : Caches)
    (request_data response_data : String) (sendOk muxOk : Bool) :
    (∀ path m st rc',
      http.reqParse (utf8Bytes request_data) = some (some path, some m) →
      http.respParse (utf8Bytes response_data) = some st →
      find_provider rx proc caches.regex path m = (.notFound, rc') →
      (finalize http rx js sha sign ord fuel proc caches request_data response_data
          sendOk muxOk).result = .panicked "provider not found" ∧
      (finalize http rx js sha sign ord fuel proc caches request_data response_data
          sendOk muxOk).sent = none) ∧
    (∀ path m st p rc' e c2,
      http.reqParse (utf8Bytes request_data) = some (some path, some m) →
      http.respParse (utf8Bytes response_data) = some st →
      find_provider rx proc caches.regex path m = (.found p, rc') →
      Processor.process rx js ord fuel proc { caches with regex := rc' } path m
          (http.utf8Lossy ((utf8Bytes response_data).drop (st.getD 0))) = (.errored e, c2) →
      (finalize http rx js sha sign ord fuel proc caches request_data response_data
          sendOk muxOk).result = .errored (.ProviderError e) ∧
      (finalize http rx js sha sign ord fuel proc caches request_data response_data
          sendOk muxOk).sent = none ∧
      (finalize http rx js sha sign ord fuel proc caches request_data response_data
          sendOk muxOk).reqZeroized = false ∧
      (finalize http rx js sha sign ord fuel proc caches request_data response_data
          sendOk muxOk).respZeroized = false) ∧
    (∀ mo st,
      http.reqParse (utf8Bytes request_data) = some (none, mo) →
      http.respParse (utf8Bytes response_data) = some st →
      sendOk = true → muxOk = true →
      ∃ ss, (finalize http rx js sha sign ord fuel proc caches request_data response_data
          sendOk muxOk).result = .completed ss ∧
        ss.attestations = [] ∧
        (finalize http rx js sha sign ord fuel proc caches request_data response_data
          sendOk muxOk).sent = some ss) := by
  refine ⟨?_, ?_, ?_⟩
  · intro path m st rc' hreq hresp hfind
    constructor <;> simp [finalize, hreq, hresp, hfind]
  · intro path m st p rc' e c2 hreq hresp hfind hproc
    refine ⟨?_, ?_, ?_, ?_⟩ <;> simp [finalize, hreq, hresp, hfind, hproc]
  · intro mo st hreq hresp hs hm
    subst hs
    subst hm
    refine ⟨{ application_signed_data :=
                hexEncode (sha (utf8Bytes request_data ++ utf8Bytes response_data))
              signature := sign (sha (utf8Bytes request_data ++ utf8Bytes response_data))
              attestations := []
              application_data :=
                hexEncode (utf8Bytes request_data ++ utf8Bytes response_data) }, ?_, rfl, ?_⟩
    · simp [finalize, hreq, hresp, finalizeSeal]
    · simp [finalize, hreq, hresp, finalizeSeal]

/-- Counterexample to C1 as stated: with a parsed path and no configured
provider, finalize panics (`provider not found`) instead of producing a
typed error and a signed claim-less session; nothing is sent. -/
theorem C1_counterexample :
    (finalize httpFix rxLit jsNever id id id 50 procEmpty Caches.empty "req" "body"
        true true).result = .panicked "provider not found" ∧
    (finalize httpFix rxLit jsNever id id id 50 procEmpty Caches.empty "req" "body"
        true true).sent = none :=
  ⟨rfl, rfl⟩

/-- Witness for C1 (amended): the evaluation-failure early return on a
concrete provider, and the degraded claim-less completion when no path is
recovered. -/
theorem C1_finalize_failure_paths_witness :
    (finalize httpFix rxLit jsNever id id id 50 procC8 Caches.empty "req" "body"
        true true).result
      = .errored (.ProviderError
          (.ProcessError "JSONPath search error: Field 'missing' not found")) ∧
    (∃ ss, (finalize httpNoPath rxLit jsNever id id id 50 procEmpty Caches.empty "req" "body"
        true true).result = .completed ss ∧
      ss.attestations = [] ∧
      (finalize httpNoPath rxLit jsNever id id id 50 procEmpty Caches.empty "req" "body"
        true true).sent = some ss) :=
  ⟨((C1_finalize_failure_paths httpFix rxLit jsNever id id id 50 procC8 Caches.empty
      "req" "body" true true).2.1 "u" "GET" none c8provider [(3, "^u$")]
      (.ProcessError "JSONPath search error: Field 'missing' not found")
      ⟨[(3, "^u$")], [(3, ["\x7ba: missing\x7d"])]⟩ rfl rfl rfl rfl).1,
   (C1_finalize_failure_paths httpNoPath rxLit jsNever id id id 50 procEmpty Caches.empty
      "req" "body" true true).2.2 none none rfl rfl rfl rfl⟩

end Esper
